import Mathlib

/-!
# Snapshot Discovery and Acquisition Engine — verification model

Shallow embedding of `thw_nodekit/toolkit/commands/snap_finder.py`:
peer directory filtering (`get_all_rpc_ips`), the peer prober/classifier
(`get_snapshot_slot`), candidate ranking (stable sort by latency), the
bandwidth-validation and download loop of `main_worker`, the `download`
helper, and the retry loop of `run_snap_finder`.

Network responses, measured speeds and `wget` return codes are supplied by
explicit environments; Python string processing (`str.split`, `int`,
`startswith`, `endswith`, substring tests, `pathlib.Path(...).name`) is
modelled over character lists so that everything evaluates inside the
kernel.  Latencies (`elapsed.total_seconds() * 1000`) and speeds
(bytes/second) are modelled as naturals, slot differences as integers.
-/

namespace SnapFinder

/-! ## Python string primitives, modelled over character lists -/

/-- Python `s.split(sep)` for a one-character separator: splits into the
(always non-empty) list of chunks between occurrences of `sep`. -/
def splitOnChar (sep : Char) : List Char → List (List Char)
  | [] => [[]]
  | c :: rest =>
    let r := splitOnChar sep rest
    if c == sep then [] :: r
    else
      match r with
      | g :: gs => (c :: g) :: gs
      | [] => [[c]]

/-- Value of a decimal digit character. -/
def digitVal? (c : Char) : Option Nat :=
  if c.isDigit then some (c.toNat - 48) else none

def parseNatAux : List Char → Nat → Option Nat
  | [], acc => some acc
  | c :: rest, acc =>
    match digitVal? c with
    | some d => parseNatAux rest (acc * 10 + d)
    | none => none

/-- Python `int(s)` restricted to the non-negative decimal numerals that
snapshot filenames carry; anything else raises `ValueError` in the source,
modelled as `none`. -/
def parseNat? : List Char → Option Nat
  | [] => none
  | l => parseNatAux l 0

/-- Python `s.endswith(suf)`. -/
def endsWithL (suf s : List Char) : Bool :=
  suf.reverse.isPrefixOf s.reverse

/-- Python `needle in hay` (contiguous substring test). -/
def hasSubstr (needle : List Char) : List Char → Bool
  | [] => needle.isEmpty
  | c :: rest => needle.isPrefixOf (c :: rest) || hasSubstr needle rest

/-- Python `pathlib.Path(s).name`: the last non-empty `/`-separated
component. -/
def pathNameL (s : String) : List Char :=
  ((splitOnChar '/' s.toList).filter (fun t => !t.isEmpty)).getLastD []

/-! ## Data model -/

/-- What the engine sees of one HTTP `HEAD` response: the optional redirect
`location` header and the elapsed latency in milliseconds. -/
structure HeadResp where
  location : Option String
  latencyMs : Nat
deriving DecidableEq

/-- Results of the up to three `do_request` HEAD probes that
`get_snapshot_slot` can issue against one peer: the incremental probe
(line 202), the paired full probe issued when the incremental does not
match the local slot (line 238), and the standalone full probe
(line 255).  `none` models `do_request` returning its error string. -/
structure PeerProbe where
  inc : Option HeadResp
  fullForInc : Option HeadResp
  full : Option HeadResp
deriving DecidableEq

/-- The module-level configuration and per-attempt state that
`get_snapshot_slot` reads. -/
structure ScanCfg where
  currentSlot : Nat
  maxLatency : Nat
  maxAge : Nat
  fullLocalSnapSlot : Nat
deriving DecidableEq

/-- One entry appended to `json_data["rpc_nodes"]`. -/
structure Candidate where
  snapshot_address : String
  slots_diff : Int
  latency : Nat
  files_to_download : List String
deriving DecidableEq

/-- Result of classifying one peer: the Candidate appended (each return
path of `get_snapshot_slot` appends at most one), plus how many HEAD
probes of the peer's full-snapshot endpoint were issued on the way. -/
structure ClassifyResult where
  emitted : Option Candidate
  fullProbes : Nat
deriving DecidableEq

/-! ## Peer Prober/Classifier (`get_snapshot_slot`, lines 193-285) -/

/-- Lines 254-281: the standalone full-snapshot check.  Parses the slot
from `snapshot-SLOT-HASH...`; emits iff the age is within
`MAX_SNAPSHOT_AGE_IN_SLOTS_CONFIG` and the latency within
`MAX_LATENCY_CONFIG`.  (Note: unlike the incremental path there is no
`slots_diff < -100` future check here.) -/
def fullSnapshotCheck (cfg : ScanCfg) (rpc_address : String) (r : Option HeadResp) :
    Option Candidate :=
  match r with
  | none => none
  | some resp =>
    match resp.location with
    | none => none
    | some loc =>
      if endsWithL ".tar".toList loc.toList then none
      else
        let parts := splitOnChar '-' loc.toList
        if parts.length > 2 then
          match parseNat? (parts.getD 1 []) with
          | none => none
          | some slot =>
            let sd : Int := (cfg.currentSlot : Int) - (slot : Int)
            if sd ≤ (cfg.maxAge : Int) ∧ resp.latencyMs ≤ cfg.maxLatency then
              some ⟨rpc_address, sd, resp.latencyMs, [loc]⟩
            else none
        else none

/-- Lines 214-218: parse base and tip slots from
`incremental-snapshot-BASE-TIP-HASH...`.  `none` covers both the
`len(parts) <= 3` case and a `ValueError` from `int()`; the source falls
through to the full check in both cases. -/
def incrementalParse (loc : String) : Option (Nat × Nat) :=
  let parts := splitOnChar '-' loc.toList
  if parts.length > 3 then
    match parseNat? (parts.getD 2 []), parseNat? (parts.getD 3 []) with
    | some base, some tip => some (base, tip)
    | _, _ => none
  else none

/-- `get_snapshot_slot` (lines 193-285), classifying one peer.  Mirrors the
source's control flow: incremental HEAD first; latency then archive-type
discards; parse; future/age discards; incremental-only emission when the
base slot equals the local full-snapshot slot; otherwise pair with the
full artifact when its HEAD redirects; in every fall-through case run the
standalone full check on a fresh HEAD. -/
def get_snapshot_slot (cfg : ScanCfg) (rpc_address : String) (p : PeerProbe) :
    ClassifyResult :=
  match p.inc with
  | none => ⟨fullSnapshotCheck cfg rpc_address p.full, 1⟩
  | some rInc =>
    match rInc.location with
    | none => ⟨fullSnapshotCheck cfg rpc_address p.full, 1⟩
    | some loc =>
      if rInc.latencyMs > cfg.maxLatency then ⟨none, 0⟩
      else if endsWithL ".tar".toList loc.toList then ⟨none, 0⟩
      else
        match incrementalParse loc with
        | none => ⟨fullSnapshotCheck cfg rpc_address p.full, 1⟩
        | some (base, tip) =>
          let sd : Int := (cfg.currentSlot : Int) - (tip : Int)
          if sd < -100 then ⟨none, 0⟩
          else if sd > (cfg.maxAge : Int) then ⟨none, 0⟩
          else if cfg.fullLocalSnapSlot == base then
            ⟨some ⟨rpc_address, sd, rInc.latencyMs, [loc]⟩, 0⟩
          else
            match p.fullForInc with
            | none => ⟨fullSnapshotCheck cfg rpc_address p.full, 2⟩
            | some rF =>
              match rF.location with
              | none => ⟨fullSnapshotCheck cfg rpc_address p.full, 2⟩
              | some fullLoc =>
                ⟨some ⟨rpc_address, sd, rInc.latencyMs, [loc, fullLoc]⟩, 1⟩

/-- The scan phase of `main_worker` (line 356): classify every peer; each
call appends at most one Candidate to the shared list. -/
def scanPeers (cfg : ScanCfg) (probes : String → PeerProbe) (peers : List String) :
    List Candidate :=
  peers.filterMap fun a => (get_snapshot_slot cfg a (probes a)).emitted

/-! ## Candidate Ranker (line 371)

`sorted(json_data["rpc_nodes"], key=lambda k: k.get('latency', inf))` under
the default `SORT_ORDER_CONFIG = 'latency'`: Python's `sorted` is a stable
sort, modelled by a structurally recursive insertion sort that places each
element before the equal-latency elements that followed it. -/

def orderedInsertLat (c : Candidate) : List Candidate → List Candidate
  | [] => [c]
  | d :: rest =>
    if c.latency ≤ d.latency then c :: d :: rest
    else d :: orderedInsertLat c rest

def rankCandidates : List Candidate → List Candidate
  | [] => []
  | c :: rest => orderedInsertLat c (rankCandidates rest)

/-! ## Peer Directory (`get_all_rpc_ips`, lines 154-190) -/

/-- One entry of the `getClusterNodes` result, with the fields the source
reads; a missing JSON field is `none`. -/
structure ClusterNode where
  version : Option String
  rpc : Option String
  gossip : Option String
deriving DecidableEq

/-- The version-filter and private-RPC configuration read by
`get_all_rpc_ips`. -/
structure DirCfg where
  wildcardVersion : Option String
  specificVersion : Option String
  withPrivateRpc : Bool
deriving DecidableEq

/-- Lines 169-170: the version discard condition.  Python truthiness of
`node_version` makes a missing or empty version bypass both filters. -/
def versionDiscarded (cfg : DirCfg) (node : ClusterNode) : Bool :=
  (match cfg.wildcardVersion, node.version with
   | some w, some v => !v.toList.isEmpty && !hasSubstr w.toList v.toList
   | _, _ => false)
  ||
  (match cfg.specificVersion, node.version with
   | some sv, some v => !v.toList.isEmpty && !(v == sv)
   | _, _ => false)

/-- Lines 177-181: fall back to the gossip address (with port 8899) when
the node has no truthy `rpc` field and private-RPC inclusion is on. -/
def privateAddr (cfg : DirCfg) (node : ClusterNode) : Option String :=
  if cfg.withPrivateRpc then
    match node.gossip with
    | none => none
    | some g =>
      if g.toList.isEmpty then none
      else some (String.mk ((splitOnChar ':' g.toList).getD 0 []) ++ ":8899")
  else none

/-- Lines 167-181: the address contributed by one cluster node, if any. -/
def nodeCandidateAddr (cfg : DirCfg) (node : ClusterNode) : Option String :=
  if versionDiscarded cfg node then none
  else
    match node.rpc with
    | some r => if r.toList.isEmpty then privateAddr cfg node else some r
    | none => privateAddr cfg node

/-- `get_all_rpc_ips`: collect addresses then deduplicate
(`list(set(rpc_ips))`, line 187 — membership-preserving). -/
def get_all_rpc_ips (cfg : DirCfg) (nodes : List ClusterNode) : List String :=
  (nodes.filterMap (nodeCandidateAddr cfg)).dedup

/-! ## Download Orchestrator (`download` lines 288-319, file loop
lines 419-491) -/

/-- The environment the download phase runs against: measured speed per
peer address (`measure_speed`, 0.0 on failure), the fresh incremental HEAD
per address (line 443), and the `wget` return code per download URL. -/
structure DlEnv where
  speed : String → Nat
  freshInc : String → Option HeadResp
  wgetRC : String → Nat

/-- Line 290: `url[url.rfind('/'):].replace("/", "")` — the part after the
last slash (the last character when no slash occurs, `rfind` giving -1). -/
def dlBasename (url : String) : String :=
  if url.toList.contains '/' then
    String.mk ((splitOnChar '/' url.toList).getLastD [])
  else
    String.mk (url.toList.reverse.take 1).reverse

/-- `download` (lines 288-319): run `wget` into `tmp-<name>`; on return
code 0 rename atomically onto the final name; otherwise remove the partial
temporary file.  The filesystem is the list of basenames present in the
snapshot directory. -/
def download (env : DlEnv) (fs : List String) (url : String) :
    List String × Bool × Option String :=
  let fname := dlBasename url
  let temp := "tmp-" ++ fname
  if env.wgetRC url == 0 then
    (fname :: fs.filter (fun g => !(g == temp)), true, some fname)
  else
    (fs.filter (fun g => !(g == temp)), false, none)

/-- Line 437: prepend the address, `/`-normalising the reference. -/
def mkUrl (addr suffix : String) : String :=
  "http://" ++ addr ++ (if "/".toList.isPrefixOf suffix.toList then suffix else "/" ++ suffix)

/-- Lines 440-465: refresh the incremental link with a fresh HEAD; when a
local full-snapshot slot is known and the fresh link's base slot does not
match (or does not parse), stick with the originally probed reference. -/
def freshIncUrl (env : DlEnv) (addr : String) (localSlot : Nat) (origUrl : String) :
    String :=
  match env.freshInc addr with
  | none => origUrl
  | some r =>
    match r.location with
    | none => origUrl
    | some freshLoc =>
      let canUse : Bool :=
        if localSlot > 0 then
          match parseNat? ((splitOnChar '-' (pathNameL freshLoc)).getD 2 []) with
          | some b => b == localSlot
          | none => false
        else true
      if canUse then mkUrl addr freshLoc else origUrl

/-- Filesystem plus the `FULL_LOCAL_SNAP_SLOT` cache, as threaded through
the per-file download loop. -/
structure FileState where
  fs : List String
  localSlot : Nat
deriving DecidableEq

/-- What happened to one artifact reference: skipped (matching local full
snapshot already present), downloaded, or failed. -/
inductive FileStep where
  | skipped
  | ok (url : String) (fname : String)
  | failed (url : String)
deriving DecidableEq

/-- Lines 422-432: a reference is skipped when it is a full snapshot
(`Path(...).name.startswith("snapshot-")`) whose parsed slot equals the
local full-snapshot slot; a parse failure means no skip. -/
def skipCheck (localSlot : Nat) (name : List Char) : Bool :=
  "snapshot-".toList.isPrefixOf name &&
    (match parseNat? ((splitOnChar '-' name).getD 1 []) with
     | some s => s == localSlot
     | none => false)

/-- Lines 437-465: the URL actually downloaded — the plain one, except
that an incremental reference is refreshed via `freshIncUrl`. -/
def chooseUrl (env : DlEnv) (addr : String) (localSlot : Nat) (suffix : String) :
    String :=
  if hasSubstr "incremental-snapshot".toList ((pathNameL suffix).map Char.toLower) then
    freshIncUrl env addr localSlot (mkUrl addr suffix)
  else mkUrl addr suffix

/-- Lines 474-485: after a successful download of a full snapshot, update
`FULL_LOCAL_SNAP_SLOT` from the downloaded filename (keeping the old value
when parsing fails). -/
def updateSlot (isFull : Bool) (localSlot : Nat) (fname : String) : Nat :=
  if isFull then
    match parseNat? ((splitOnChar '-' (pathNameL fname)).getD 1 []) with
    | some s => s
    | none => localSlot
  else localSlot

/-- One iteration of the loop at lines 420-485 for one artifact
reference. -/
def processFile (env : DlEnv) (addr : String) (st : FileState) (suffix : String) :
    FileState × FileStep :=
  let name := pathNameL suffix
  if skipCheck st.localSlot name then (st, FileStep.skipped)
  else
    let url := chooseUrl env addr st.localSlot suffix
    match download env st.fs url with
    | (fs', true, some fname) =>
      (⟨fs', updateSlot ("snapshot-".toList.isPrefixOf name) st.localSlot fname⟩,
        FileStep.ok url fname)
    | (fs', _, _) => (⟨fs', st.localSlot⟩, FileStep.failed url)

/-- Outcome of the per-candidate file loop: final filesystem and local
slot, the download URLs attempted in order, and whether every reference
transferred (`all_downloads_successful`). -/
structure DlResult where
  fs : List String
  localSlot : Nat
  attempted : List String
  allOk : Bool
deriving DecidableEq

/-- Lines 419-485: process the references one by one; a failed download
breaks out of the loop (`break`, line 472), leaving the remaining
references unattempted. -/
def downloadFiles (env : DlEnv) (addr : String) :
    List String → FileState → List String → DlResult
  | [], st, acc => ⟨st.fs, st.localSlot, acc, true⟩
  | suffix :: rest, st, acc =>
    match processFile env addr st suffix with
    | (st', FileStep.skipped) => downloadFiles env addr rest st' acc
    | (st', FileStep.ok url _) => downloadFiles env addr rest st' (acc ++ [url])
    | (st', FileStep.failed url) => ⟨st'.fs, st'.localSlot, acc ++ [url], false⟩

/-! ## Bandwidth Validator + per-candidate download (lines 390-495) -/

/-- Per-attempt state of the validation loop: filesystem, the local
full-snapshot slot, and `unsuitable_servers`. -/
structure ValState where
  fs : List String
  localSlot : Nat
  unsuitable : List String
deriving DecidableEq

/-- Outcome of the validation loop: `main_worker`'s return value (0
success, 1 failure), the final state, and the addresses actually
speed-measured, in order. -/
structure ValResult where
  ret : Nat
  st : ValState
  checked : List String
deriving DecidableEq

/-- The loop at lines 393-495 over the ranked candidates: skip peers
already unsuitable; measure speed; a zero or below-minimum speed marks the
peer unsuitable and moves on; otherwise download the candidate's
references in reverse order, returning 0 when all succeeded and moving to
the next candidate otherwise. -/
def validateLoop (env : DlEnv) (minSpeedMB : Nat) :
    List Candidate → ValState → ValResult
  | [], st => ⟨1, st, []⟩
  | c :: rest, st =>
    let a := c.snapshot_address
    if st.unsuitable.contains a then
      validateLoop env minSpeedMB rest st
    else
      let sp := env.speed a
      if sp == 0 then
        let r := validateLoop env minSpeedMB rest ⟨st.fs, st.localSlot, a :: st.unsuitable⟩
        ⟨r.ret, r.st, a :: r.checked⟩
      else if sp < minSpeedMB * 1024 * 1024 then
        let r := validateLoop env minSpeedMB rest ⟨st.fs, st.localSlot, a :: st.unsuitable⟩
        ⟨r.ret, r.st, a :: r.checked⟩
      else
        let d := downloadFiles env a c.files_to_download.reverse ⟨st.fs, st.localSlot⟩ []
        if d.allOk && !c.files_to_download.isEmpty then
          ⟨0, ⟨d.fs, d.localSlot, st.unsuitable⟩, [a]⟩
        else
          let r := validateLoop env minSpeedMB rest ⟨d.fs, d.localSlot, st.unsuitable⟩
          ⟨r.ret, r.st, a :: r.checked⟩

/-- Lines 390-393: only the top `num_of_rpc_to_check_speed = 15` ranked
candidates are considered. -/
def validateTop (env : DlEnv) (minSpeedMB : Nat) (ranked : List Candidate)
    (st : ValState) : ValResult :=
  validateLoop env minSpeedMB (ranked.take 15) st

/-! ## Attempt Controller (`run_snap_finder` loop, lines 615-669) -/

/-- How one attempt ends: `get_current_slot()` returning `None`
(line 637), `main_worker()` returning nonzero, or `main_worker()`
returning 0. -/
inductive AttemptOutcome where
  | oracleFail
  | workerFail
  | workerSuccess
deriving DecidableEq

/-- The retry loop, driven by an environment giving each attempt's outcome
as a function of the attempt number (1-based) and the
`WITH_PRIVATE_RPC_CONFIG` flag at entry.  Returns overall success and the
flag value each executed attempt ran with.  On an oracle failure the
source `continue`s before the escalation block (lines 637-642); only a
worker failure reaches line 658-660, which sets the flag to `True`. -/
def snapLoop (env : Nat → Bool → AttemptOutcome) :
    Nat → Nat → Bool → Bool × List Bool
  | 0, _, _ => (false, [])
  | fuel + 1, made, flag =>
    match env (made + 1) flag with
    | AttemptOutcome.workerSuccess => (true, [flag])
    | AttemptOutcome.oracleFail =>
      let r := snapLoop env fuel (made + 1) flag
      (r.1, flag :: r.2)
    | AttemptOutcome.workerFail =>
      let r := snapLoop env fuel (made + 1) true
      (r.1, flag :: r.2)

/-- `run_snap_finder`'s loop with `_NUM_OF_MAX_ATTEMPTS = 5`, starting
with `WITH_PRIVATE_RPC_CONFIG = False`. -/
def run_snap_finder_attempts (env : Nat → Bool → AttemptOutcome) : Bool × List Bool :=
  snapLoop env 5 0 false

/-! ## Helper lemmas -/

theorem isPrefixOf_exists :
    ∀ {l₁ l₂ : List Char}, l₁.isPrefixOf l₂ = true → ∃ t, l₂ = l₁ ++ t
  | [], l₂, _ => ⟨l₂, rfl⟩
  | _ :: _, [], h => by simp [List.isPrefixOf] at h
  | a :: l₁, b :: l₂, h => by
    simp only [List.isPrefixOf, Bool.and_eq_true, beq_iff_eq] at h
    obtain ⟨t, ht⟩ := isPrefixOf_exists h.2
    exact ⟨t, by rw [h.1, List.cons_append, ht]⟩

theorem splitOnChar_inc_prefixed (t : List Char) :
    splitOnChar '-' ("incremental-snapshot-".toList ++ t) =
      "incremental".toList :: "snapshot".toList :: splitOnChar '-' t := rfl

theorem parseNat?_snapshot_word : parseNat? "snapshot".toList = none := rfl

theorem ite_bool_false {α : Sort _} {b : Bool} (h : b = false) (x y : α) :
    (if b then x else y) = y := by simp [h]

theorem ite_bool_true {α : Sort _} {b : Bool} (h : b = true) (x y : α) :
    (if b then x else y) = x := by simp [h]

/-- Inversion for the full check: an emission records the redirect
location as the single file and its second `-`-chunk parsed as a slot. -/
theorem fullSnapshotCheck_inv (cfg : ScanCfg) (addr : String)
    (r : Option HeadResp) (c : Candidate)
    (h : fullSnapshotCheck cfg addr r = some c) :
    ∃ loc slot, c.files_to_download = [loc] ∧
      parseNat? ((splitOnChar '-' loc.toList).getD 1 []) = some slot := by
  rcases r with _ | resp
  · exact Option.noConfusion h
  · rcases hl : resp.location with _ | loc
    · simp only [fullSnapshotCheck, hl] at h
      exact Option.noConfusion h
    · simp only [fullSnapshotCheck, hl] at h
      rcases htar : endsWithL ".tar".toList loc.toList with _ | _
      · rw [ite_bool_false htar] at h
        by_cases hlen : (splitOnChar '-' loc.toList).length > 2
        · rw [if_pos hlen] at h
          rcases hp : parseNat? ((splitOnChar '-' loc.toList).getD 1 []) with _ | slot
          · simp only [hp] at h
            exact Option.noConfusion h
          · simp only [hp] at h
            by_cases hcond : ((cfg.currentSlot : Int) - slot ≤ (cfg.maxAge : Int) ∧
                resp.latencyMs ≤ cfg.maxLatency)
            · rw [if_pos hcond] at h
              injection h with h'
              exact ⟨loc, slot, by rw [← h'], hp⟩
            · rw [if_neg hcond] at h; exact Option.noConfusion h
        · rw [if_neg hlen] at h; exact Option.noConfusion h
      · rw [ite_bool_true htar] at h; exact Option.noConfusion h

/-- A reference whose name begins with `incremental-snapshot-` cannot be
emitted by the standalone full check: its second `-`-chunk is the word
`snapshot`, which `int()` rejects. -/
theorem fullSnapshotCheck_no_inc_ref (cfg : ScanCfg) (addr : String)
    (r : Option HeadResp) (c : Candidate) (f : String)
    (h : fullSnapshotCheck cfg addr r = some c)
    (hf : c.files_to_download = [f])
    (hpre : "incremental-snapshot-".toList.isPrefixOf f.toList = true) : False := by
  obtain ⟨loc, slot, hcl, hp⟩ := fullSnapshotCheck_inv cfg addr r c h
  have hfl : f = loc := by
    rw [hcl] at hf
    exact (List.cons_eq_cons.mp hf).1.symm
  obtain ⟨t, ht⟩ := isPrefixOf_exists hpre
  rw [hfl] at ht
  rw [ht, splitOnChar_inc_prefixed] at hp
  simp only [List.getD_cons_succ, List.getD_cons_zero] at hp
  rw [parseNat?_snapshot_word] at hp
  exact Option.noConfusion hp

/-! ## C5 — matching incremental emits immediately, no full probe -/

/-- C5: if the incremental probe answers with a redirect that passes the
latency, archive-type and age checks and its base slot equals the local
full-snapshot slot, the classifier emits a Candidate carrying only the
incremental reference and issues no HEAD probe of the peer's full
artifact. -/
theorem inc_match_emits_without_full_probe (cfg : ScanCfg) (addr : String)
    (p : PeerProbe) (rInc : HeadResp) (loc : String) (base tip : Nat)
    (hinc : p.inc = some rInc)
    (hloc : rInc.location = some loc)
    (hlat : rInc.latencyMs ≤ cfg.maxLatency)
    (htar : endsWithL ".tar".toList loc.toList = false)
    (hparse : incrementalParse loc = some (base, tip))
    (hfut : -100 ≤ (cfg.currentSlot : Int) - tip)
    (hage : (cfg.currentSlot : Int) - tip ≤ (cfg.maxAge : Int))
    (hbase : base = cfg.fullLocalSnapSlot) :
    get_snapshot_slot cfg addr p =
      ⟨some ⟨addr, (cfg.currentSlot : Int) - tip, rInc.latencyMs, [loc]⟩, 0⟩ := by
  have h1 : ¬ rInc.latencyMs > cfg.maxLatency := by omega
  have h2 : ¬ ((cfg.currentSlot : Int) - tip < -100) := by omega
  have h3 : ¬ ((cfg.currentSlot : Int) - tip > (cfg.maxAge : Int)) := by omega
  subst hbase
  simp only [get_snapshot_slot, hinc, hloc, hparse]
  rw [if_neg h1, ite_bool_false htar, if_neg h2, if_neg h3,
    ite_bool_true (beq_self_eq_true cfg.fullLocalSnapSlot)]

/-- C5 witness: a peer at latency 50 offering
`incremental-snapshot-500-600-abc.tar.zst` against local full slot 500 and
current slot 600 — emitted incremental-only with zero full probes, even
though both full-probe responses are available. -/
theorem inc_match_emits_without_full_probe_witness :
    get_snapshot_slot ⟨600, 100, 1300, 500⟩ "2.2.2.2:8899"
        ⟨some ⟨some "incremental-snapshot-500-600-abc.tar.zst", 50⟩,
         some ⟨some "snapshot-400-xyz.tar.zst", 10⟩,
         some ⟨some "snapshot-400-xyz.tar.zst", 10⟩⟩ =
      ⟨some ⟨"2.2.2.2:8899", 0, 50, ["incremental-snapshot-500-600-abc.tar.zst"]⟩, 0⟩ :=
  inc_match_emits_without_full_probe ⟨600, 100, 1300, 500⟩ "2.2.2.2:8899" _
    ⟨some "incremental-snapshot-500-600-abc.tar.zst", 50⟩
    "incremental-snapshot-500-600-abc.tar.zst" 500 600
    rfl rfl (by decide) (by decide) (by decide) (by decide) (by decide) rfl

/-! ## C6 — the standalone full check's discard conditions -/

/-- C6 counterexample: with current slot 1000, a full snapshot advertised
at slot 2000 — 1000 slots in the future, far beyond the 100-slot tolerance
the claim says applies — is emitted, not discarded: the full path has no
future check. -/
theorem full_check_future_not_discarded_cex :
    fullSnapshotCheck ⟨1000, 100, 1300, 0⟩ "5.6.7.8:8899"
        (some ⟨some "snapshot-2000-abc.tar.zst", 10⟩) =
      some ⟨"5.6.7.8:8899", -1000, 10, ["snapshot-2000-abc.tar.zst"]⟩
    ∧ ((1000 : Int) - 2000 < -100) := by
  constructor <;> decide

/-- C6 (amended): the standalone full check discards by age or latency
using the incremental check's thresholds (`maxAge`, `maxLatency`) and
otherwise emits a Candidate carrying only the full reference with
`slots_diff` equal to current slot minus artifact slot; no future
tolerance is applied, so an artifact ahead of the current slot is kept
whenever the latency passes. -/
theorem full_check_age_latency_characterization (cfg : ScanCfg) (addr : String)
    (resp : HeadResp) (loc : String) (slot : Nat)
    (hloc : resp.location = some loc)
    (htar : endsWithL ".tar".toList loc.toList = false)
    (hlen : (splitOnChar '-' loc.toList).length > 2)
    (hparse : parseNat? ((splitOnChar '-' loc.toList).getD 1 []) = some slot) :
    (((cfg.currentSlot : Int) - slot > (cfg.maxAge : Int) ∨
        cfg.maxLatency < resp.latencyMs) →
      fullSnapshotCheck cfg addr (some resp) = none)
    ∧ ((cfg.currentSlot : Int) - slot ≤ (cfg.maxAge : Int) →
        resp.latencyMs ≤ cfg.maxLatency →
      fullSnapshotCheck cfg addr (some resp) =
        some ⟨addr, (cfg.currentSlot : Int) - slot, resp.latencyMs, [loc]⟩) := by
  have e : fullSnapshotCheck cfg addr (some resp) =
      if ((cfg.currentSlot : Int) - slot ≤ (cfg.maxAge : Int) ∧
          resp.latencyMs ≤ cfg.maxLatency) then
        some ⟨addr, (cfg.currentSlot : Int) - slot, resp.latencyMs, [loc]⟩
      else none := by
    simp only [fullSnapshotCheck, hloc]
    rw [ite_bool_false htar, if_pos hlen, hparse]
  constructor
  · intro h
    rw [e, if_neg]
    rintro ⟨ha, hb⟩
    rcases h with h | h <;> omega
  · intro h1 h2
    rw [e, if_pos ⟨h1, h2⟩]

/-- C6 witness: a full snapshot at slot 1000 with current slot 1050,
latency 10 — emitted with `slots_diff = 50`; and the same artifact at
current slot 3000 — discarded by age. -/
theorem full_check_age_latency_characterization_witness :
    fullSnapshotCheck ⟨1050, 100, 1300, 0⟩ "7.7.7.7:8899"
        (some ⟨some "snapshot-1000-abc.tar.zst", 10⟩) =
      some ⟨"7.7.7.7:8899", 50, 10, ["snapshot-1000-abc.tar.zst"]⟩
    ∧ fullSnapshotCheck ⟨3000, 100, 1300, 0⟩ "7.7.7.7:8899"
        (some ⟨some "snapshot-1000-abc.tar.zst", 10⟩) = none := by
  constructor
  · exact (full_check_age_latency_characterization ⟨1050, 100, 1300, 0⟩ "7.7.7.7:8899"
      ⟨some "snapshot-1000-abc.tar.zst", 10⟩ "snapshot-1000-abc.tar.zst" 1000
      rfl (by decide) (by decide) (by decide)).2 (by decide) (by decide)
  · exact (full_check_age_latency_characterization ⟨3000, 100, 1300, 0⟩ "7.7.7.7:8899"
      ⟨some "snapshot-1000-abc.tar.zst", 10⟩ "snapshot-1000-abc.tar.zst" 1000
      rfl (by decide) (by decide) (by decide)).1 (by decide)

/-! ## C8 — at most one Candidate per scanned peer -/

/-- C8: each classified peer contributes at most one Candidate (every
return path of `get_snapshot_slot` appends at most one entry), so the
number of Candidates emitted by a scan is at most the number of peers
scanned. -/
theorem scan_candidates_le_peers (cfg : ScanCfg) (probes : String → PeerProbe)
    (peers : List String) :
    (scanPeers cfg probes peers).length ≤ peers.length :=
  List.length_filterMap_le _ _

/-! ## C10 — missing or empty version passes every version filter -/

/-- C10: a cluster node reporting no software version (missing or empty
`version` field) is never discarded by the version filter — whatever exact
or wildcard filter is configured — and its public RPC address reaches the
candidate peer set. -/
theorem missing_version_passes_filter (cfg : DirCfg) (nodes : List ClusterNode)
    (node : ClusterNode) (addr : String)
    (hmem : node ∈ nodes)
    (hver : node.version = none ∨ node.version = some "")
    (hrpc : node.rpc = some addr)
    (hne : addr.toList.isEmpty = false) :
    versionDiscarded cfg node = false ∧ addr ∈ get_all_rpc_ips cfg nodes := by
  have hvd : versionDiscarded cfg node = false := by
    rcases hver with h | h <;>
      rcases hw : cfg.wildcardVersion with _ | w <;>
      rcases hs : cfg.specificVersion with _ | sv <;>
        simp [versionDiscarded, h, hw, hs]
  refine ⟨hvd, ?_⟩
  have haddr : nodeCandidateAddr cfg node = some addr := by
    simp only [nodeCandidateAddr, hrpc]
    rw [ite_bool_false hvd, ite_bool_false hne]
  exact List.mem_dedup.mpr (List.mem_filterMap.mpr ⟨node, hmem, haddr⟩)

/-- C10 witness: with both an exact filter `2.1.16` and a wildcard filter
`2.1` configured, a version-less node's RPC address is still included. -/
theorem missing_version_passes_filter_witness :
    versionDiscarded ⟨some "2.1", some "2.1.16", true⟩ ⟨none, some "1.2.3.4:8899", none⟩ = false
    ∧ "1.2.3.4:8899" ∈ get_all_rpc_ips ⟨some "2.1", some "2.1.16", true⟩
        [⟨none, some "1.2.3.4:8899", none⟩, ⟨some "1.0.0", some "9.9.9.9:1", none⟩] :=
  missing_version_passes_filter ⟨some "2.1", some "2.1.16", true⟩
    [⟨none, some "1.2.3.4:8899", none⟩, ⟨some "1.0.0", some "9.9.9.9:1", none⟩]
    ⟨none, some "1.2.3.4:8899", none⟩ "1.2.3.4:8899"
    (by decide) (Or.inl rfl) rfl (by decide)

/-! ## C3 — escalation across attempts -/

theorem snapLoop_no_success (env : Nat → Bool → AttemptOutcome)
    (h : ∀ n f, env n f ≠ AttemptOutcome.workerSuccess) :
    ∀ (fuel made : Nat) (flag : Bool),
      (snapLoop env fuel made flag).1 = false ∧
        (snapLoop env fuel made flag).2.length = fuel := by
  intro fuel
  induction fuel with
  | zero => intro made flag; simp [snapLoop]
  | succ n ih =>
    intro made flag
    cases henv : env (made + 1) flag with
    | workerSuccess => exact absurd henv (h _ _)
    | oracleFail => simp [snapLoop, henv, ih (made + 1) flag]
    | workerFail => simp [snapLoop, henv, ih (made + 1) true]

theorem snapLoop_flag_latch (env : Nat → Bool → AttemptOutcome) :
    ∀ (fuel made j : Nat), j < (snapLoop env fuel made true).2.length →
      (snapLoop env fuel made true).2.getD j false = true := by
  intro fuel
  induction fuel with
  | zero => intro made j hj; simp [snapLoop] at hj
  | succ n ih =>
    intro made j hj
    cases henv : env (made + 1) true with
    | workerSuccess =>
      rw [snapLoop] at hj ⊢
      simp only [henv] at hj ⊢
      have hj0 : j = 0 := by simpa using hj
      rw [hj0]; rfl
    | oracleFail =>
      rw [snapLoop] at hj ⊢
      simp only [henv] at hj ⊢
      cases j with
      | zero => rfl
      | succ j' =>
        simp only [List.getD_cons_succ]
        exact ih (made + 1) j' (by simpa using hj)
    | workerFail =>
      rw [snapLoop] at hj ⊢
      simp only [henv] at hj ⊢
      cases j with
      | zero => rfl
      | succ j' =>
        simp only [List.getD_cons_succ]
        exact ih (made + 1) j' (by simpa using hj)

theorem snapLoop_fail_latch (env : Nat → Bool → AttemptOutcome) :
    ∀ (fuel made : Nat) (flag : Bool) (i j : Nat), i < j →
      j < (snapLoop env fuel made flag).2.length →
      env (made + 1 + i) ((snapLoop env fuel made flag).2.getD i false) =
        AttemptOutcome.workerFail →
      (snapLoop env fuel made flag).2.getD j false = true := by
  intro fuel
  induction fuel with
  | zero => intro made flag i j hij hj hfail; simp [snapLoop] at hj
  | succ n ih =>
    intro made flag i j hij hj hfail
    cases henv : env (made + 1) flag with
    | workerSuccess =>
      rw [snapLoop] at hj
      simp only [henv] at hj
      simp at hj
      omega
    | oracleFail =>
      rw [snapLoop] at hj hfail ⊢
      simp only [henv] at hj hfail ⊢
      cases i with
      | zero =>
        rw [List.getD_cons_zero] at hfail
        rw [Nat.add_zero] at hfail
        rw [henv] at hfail
        exact absurd hfail (by simp)
      | succ i' =>
        cases j with
        | zero => omega
        | succ j' =>
          rw [List.getD_cons_succ] at hfail ⊢
          have harith : made + 1 + (i' + 1) = made + 1 + 1 + i' := by omega
          rw [harith] at hfail
          exact ih (made + 1) flag i' j' (by omega) (by simpa using hj) hfail
    | workerFail =>
      rw [snapLoop] at hj hfail ⊢
      simp only [henv] at hj hfail ⊢
      cases i with
      | zero =>
        cases j with
        | zero => omega
        | succ j' =>
          rw [List.getD_cons_succ]
          exact snapLoop_flag_latch env n (made + 1) j' (by simpa using hj)
      | succ i' =>
        cases j with
        | zero => omega
        | succ j' =>
          rw [List.getD_cons_succ] at hfail ⊢
          have harith : made + 1 + (i' + 1) = made + 1 + 1 + i' := by omega
          rw [harith] at hfail
          exact ih (made + 1) true i' j' (by omega) (by simpa using hj) hfail

/-- C3 counterexample: when every attempt fails because the height oracle
is unreachable, the `continue` at line 642 skips the escalation block, so
every one of the 5 attempts runs with private-service inclusion still
disabled — contradicting the claim that inclusion is enabled after the
first failed attempt of any kind.  The run still ends in overall
failure after 5 attempts. -/
theorem oracle_fail_no_escalation_cex :
    (run_snap_finder_attempts (fun _ _ => AttemptOutcome.oracleFail)).2.getD 1 false = false
    ∧ run_snap_finder_attempts (fun _ _ => AttemptOutcome.oracleFail) =
        (false, [false, false, false, false, false]) := by
  constructor <;> decide

/-- C3 (amended): after the first attempt whose scan/validate phase runs
and fails (`main_worker` nonzero — not an attempt cut short by an
unreachable height oracle, which skips the escalation block),
private-service inclusion is enabled and remains enabled for every
subsequent attempt; and when no attempt succeeds, the engine makes
exactly 5 attempts and returns overall failure. -/
theorem escalation_latch_after_worker_failure (env : Nat → Bool → AttemptOutcome) :
    ((∀ n f, env n f ≠ AttemptOutcome.workerSuccess) →
      (run_snap_finder_attempts env).1 = false ∧
        (run_snap_finder_attempts env).2.length = 5)
    ∧ (∀ i j : Nat, i < j → j < (run_snap_finder_attempts env).2.length →
        env (i + 1) ((run_snap_finder_attempts env).2.getD i false) =
          AttemptOutcome.workerFail →
        (run_snap_finder_attempts env).2.getD j false = true) := by
  constructor
  · intro h
    exact snapLoop_no_success env h 5 0 false
  · intro i j hij hj hfail
    apply snapLoop_fail_latch env 5 0 false i j hij hj
    have harith : 0 + 1 + i = i + 1 := by omega
    rw [harith]
    exact hfail

/-- C3 witness: with every attempt's worker failing, the run returns
failure, and applying the latch at the first attempt shows attempt 2 runs
with private-service inclusion enabled. -/
theorem escalation_latch_after_worker_failure_witness :
    (run_snap_finder_attempts (fun _ _ => AttemptOutcome.workerFail)).1 = false
    ∧ (run_snap_finder_attempts (fun _ _ => AttemptOutcome.workerFail)).2.getD 1 false = true :=
  ⟨((escalation_latch_after_worker_failure (fun _ _ => AttemptOutcome.workerFail)).1
      (fun _ _ h => AttemptOutcome.noConfusion h)).1,
   (escalation_latch_after_worker_failure (fun _ _ => AttemptOutcome.workerFail)).2
      0 1 (by decide) (by decide) (by decide)⟩

/-! ## C4 — incremental-only emission when no local full snapshot -/

/-- C4 counterexample: with no usable local full snapshot
(`FULL_LOCAL_SNAP_SLOT = 0`), a peer advertising
`incremental-snapshot-0-600-abc.tar.zst` — parsed base height 0 — passes
the `FULL_LOCAL_SNAP_SLOT == incremental_base_slot` test and a Candidate
carrying only that incremental reference is emitted, contradicting the
claim that no incremental-only Candidate is ever emitted when the local
full height is 0. -/
theorem inc_only_zero_base_emitted_cex :
    (get_snapshot_slot ⟨600, 100, 1300, 0⟩ "1.2.3.4:8899"
        ⟨some ⟨some "incremental-snapshot-0-600-abc.tar.zst", 5⟩, none, none⟩).emitted =
      some ⟨"1.2.3.4:8899", 0, 5, ["incremental-snapshot-0-600-abc.tar.zst"]⟩
    ∧ "incremental-snapshot-".toList.isPrefixOf
        "incremental-snapshot-0-600-abc.tar.zst".toList = true := by
  constructor <;> decide

/-- C4 (amended): when the local full-snapshot height is 0, any emitted
Candidate whose `files_to_download` is a single incremental reference has
parsed base height 0 (equal to the local height, per the
`FULL_LOCAL_SNAP_SLOT == incremental_base_slot` test); an incremental-only
Candidate with positive base height is never emitted. -/
theorem inc_only_requires_base_eq_local (cfg : ScanCfg) (addr : String)
    (p : PeerProbe) (c : Candidate) (f : String) (base tip : Nat)
    (hlocal : cfg.fullLocalSnapSlot = 0)
    (hemit : (get_snapshot_slot cfg addr p).emitted = some c)
    (hf : c.files_to_download = [f])
    (hpre : "incremental-snapshot-".toList.isPrefixOf f.toList = true)
    (hparse : incrementalParse f = some (base, tip)) :
    base = 0 := by
  rcases hpi : p.inc with _ | rInc
  · simp only [get_snapshot_slot, hpi] at hemit
    exact (fullSnapshotCheck_no_inc_ref cfg addr p.full c f hemit hf hpre).elim
  · simp only [get_snapshot_slot, hpi] at hemit
    rcases hloc : rInc.location with _ | loc
    · simp only [hloc] at hemit
      exact (fullSnapshotCheck_no_inc_ref cfg addr p.full c f hemit hf hpre).elim
    · simp only [hloc] at hemit
      by_cases hlat : rInc.latencyMs > cfg.maxLatency
      · rw [if_pos hlat] at hemit
        exact Option.noConfusion hemit
      · rw [if_neg hlat] at hemit
        rcases htar : endsWithL ".tar".toList loc.toList with _ | _
        · rw [ite_bool_false htar] at hemit
          rcases hip : incrementalParse loc with _ | bt
          · simp only [hip] at hemit
            exact (fullSnapshotCheck_no_inc_ref cfg addr p.full c f hemit hf hpre).elim
          · obtain ⟨b, t⟩ := bt
            simp only [hip] at hemit
            by_cases hfut : (cfg.currentSlot : Int) - t < -100
            · rw [if_pos hfut] at hemit
              exact Option.noConfusion hemit
            · rw [if_neg hfut] at hemit
              by_cases hage : (cfg.currentSlot : Int) - t > (cfg.maxAge : Int)
              · rw [if_pos hage] at hemit
                exact Option.noConfusion hemit
              · rw [if_neg hage] at hemit
                rcases hbeq : (cfg.fullLocalSnapSlot == b) with _ | _
                · rw [ite_bool_false hbeq] at hemit
                  rcases hffi : p.fullForInc with _ | rF
                  · simp only [hffi] at hemit
                    exact (fullSnapshotCheck_no_inc_ref cfg addr p.full c f hemit hf hpre).elim
                  · simp only [hffi] at hemit
                    rcases hflc : rF.location with _ | fullLoc
                    · simp only [hflc] at hemit
                      exact (fullSnapshotCheck_no_inc_ref cfg addr p.full c f hemit hf hpre).elim
                    · simp only [hflc] at hemit
                      injection hemit with h'
                      have : c.files_to_download = [loc, fullLoc] := by rw [← h']
                      rw [this] at hf
                      simp at hf
                · rw [ite_bool_true hbeq] at hemit
                  injection hemit with h'
                  have hcf : c.files_to_download = [loc] := by rw [← h']
                  rw [hcf] at hf
                  have hfl : f = loc := (List.cons_eq_cons.mp hf).1.symm
                  rw [← hfl] at hip
                  rw [hparse] at hip
                  injection hip with hbt
                  have hb0 : base = b := (Prod.mk.injEq .. ▸ hbt).1
                  have : cfg.fullLocalSnapSlot = b := by simpa using hbeq
                  omega
        · rw [ite_bool_true htar] at hemit
          exact Option.noConfusion hemit

/-- C4 witness for the amended claim: the counterexample input's emission
carries base height 0. -/
theorem inc_only_requires_base_eq_local_witness :
    (0 : Nat) = 0 ∧
      (get_snapshot_slot ⟨600, 100, 1300, 0⟩ "1.2.3.4:8899"
          ⟨some ⟨some "incremental-snapshot-0-600-abc.tar.zst", 5⟩, none, none⟩).emitted =
        some ⟨"1.2.3.4:8899", 0, 5, ["incremental-snapshot-0-600-abc.tar.zst"]⟩ :=
  ⟨inc_only_requires_base_eq_local ⟨600, 100, 1300, 0⟩ "1.2.3.4:8899"
      ⟨some ⟨some "incremental-snapshot-0-600-abc.tar.zst", 5⟩, none, none⟩
      ⟨"1.2.3.4:8899", 0, 5, ["incremental-snapshot-0-600-abc.tar.zst"]⟩
      "incremental-snapshot-0-600-abc.tar.zst" 0 600
      rfl (by decide) rfl (by decide) (by decide),
   by decide⟩

/-! ## C9 — ranking is a stable ascending sort by latency -/

theorem mem_orderedInsertLat (b c : Candidate) (l : List Candidate) :
    b ∈ orderedInsertLat c l ↔ b = c ∨ b ∈ l := by
  induction l with
  | nil => simp [orderedInsertLat]
  | cons d rest ih =>
    simp only [orderedInsertLat]
    split
    · simp [List.mem_cons]
    · simp only [List.mem_cons, ih]
      tauto

theorem pairwise_orderedInsertLat (c : Candidate) (l : List Candidate)
    (h : l.Pairwise (fun a b => a.latency ≤ b.latency)) :
    (orderedInsertLat c l).Pairwise (fun a b => a.latency ≤ b.latency) := by
  induction l with
  | nil => simp [orderedInsertLat]
  | cons d rest ih =>
    rcases List.pairwise_cons.mp h with ⟨hd, hrest⟩
    simp only [orderedInsertLat]
    split
    · rename_i hcd
      refine List.pairwise_cons.mpr ⟨?_, h⟩
      intro b hb
      rcases List.mem_cons.mp hb with rfl | hb
      · exact hcd
      · exact le_trans hcd (hd b hb)
    · rename_i hcd
      refine List.pairwise_cons.mpr ⟨?_, ih hrest⟩
      intro b hb
      rcases (mem_orderedInsertLat b c rest).mp hb with rfl | hb
      · omega
      · exact hd b hb

theorem pairwise_rankCandidates (l : List Candidate) :
    (rankCandidates l).Pairwise (fun a b => a.latency ≤ b.latency) := by
  induction l with
  | nil => simp [rankCandidates]
  | cons c rest ih => exact pairwise_orderedInsertLat c _ ih

theorem filter_orderedInsertLat (v : Nat) (c : Candidate) (l : List Candidate) :
    (orderedInsertLat c l).filter (fun x => x.latency == v) =
      if c.latency == v then c :: l.filter (fun x => x.latency == v)
      else l.filter (fun x => x.latency == v) := by
  induction l with
  | nil =>
    cases hc : (c.latency == v) <;> simp [orderedInsertLat, List.filter, hc]
  | cons d rest ih =>
    simp only [orderedInsertLat]
    split
    · rename_i hcd
      cases hc : (c.latency == v) <;> simp [List.filter_cons, hc]
    · rename_i hcd
      by_cases hc : c.latency = v
      · have hcb : (c.latency == v) = true := by simpa using hc
        have hdb : (d.latency == v) = false := by
          simp only [beq_eq_false_iff_ne]
          omega
        simp [List.filter_cons, hcb, hdb, ih]
      · have hcb : (c.latency == v) = false := by simpa using hc
        cases hd : (d.latency == v) <;> simp [List.filter_cons, hcb, hd, ih]

theorem filter_rankCandidates (v : Nat) (l : List Candidate) :
    (rankCandidates l).filter (fun x => x.latency == v) =
      l.filter (fun x => x.latency == v) := by
  induction l with
  | nil => rfl
  | cons c rest ih =>
    simp only [rankCandidates]
    rw [filter_orderedInsertLat]
    cases hc : (c.latency == v) <;> simp [List.filter_cons, hc, ih]

/-- C9: under the default ranking key, the ranked Candidate list is a
stable ascending sort of the emitted Candidates by latency: any earlier
entry has latency at most any later entry's, and for every latency value
the entries carrying it appear in their discovery order (filtering the
ranked list by a latency value gives exactly the same list as filtering
the input). -/
theorem rank_sorted_and_stable (l : List Candidate) :
    (∀ (i j : Nat) (hj : j < (rankCandidates l).length) (hij : i < j),
      ((rankCandidates l).get ⟨i, Nat.lt_trans hij hj⟩).latency ≤
        ((rankCandidates l).get ⟨j, hj⟩).latency)
    ∧ (∀ v : Nat, (rankCandidates l).filter (fun c => c.latency == v) =
        l.filter (fun c => c.latency == v)) := by
  constructor
  · intro i j hj hij
    exact List.pairwise_iff_get.mp (pairwise_rankCandidates l) ⟨i, Nat.lt_trans hij hj⟩
      ⟨j, hj⟩ hij
  · exact fun v => filter_rankCandidates v l

/-- C9 witness: ranking three Candidates with latencies 30, 10, 30 — the
first two ranked entries are ordered by latency, and the two
latency-30 Candidates keep their discovery order. -/
theorem rank_sorted_and_stable_witness :
    ((rankCandidates [⟨"a", 0, 30, []⟩, ⟨"b", 0, 10, []⟩, ⟨"c", 0, 30, []⟩]).get
        ⟨0, by decide⟩).latency ≤
      ((rankCandidates [⟨"a", 0, 30, []⟩, ⟨"b", 0, 10, []⟩, ⟨"c", 0, 30, []⟩]).get
        ⟨1, by decide⟩).latency
    ∧ (rankCandidates [⟨"a", 0, 30, []⟩, ⟨"b", 0, 10, []⟩, ⟨"c", 0, 30, []⟩]).filter
        (fun c => c.latency == 30) =
      [⟨"a", 0, 30, []⟩, ⟨"b", 0, 10, []⟩, ⟨"c", 0, 30, []⟩].filter
        (fun c => c.latency == 30) :=
  ⟨(rank_sorted_and_stable [⟨"a", 0, 30, []⟩, ⟨"b", 0, 10, []⟩, ⟨"c", 0, 30, []⟩]).1
      0 1 (by decide) (by decide),
   (rank_sorted_and_stable [⟨"a", 0, 30, []⟩, ⟨"b", 0, 10, []⟩, ⟨"c", 0, 30, []⟩]).2 30⟩

/-! ## Lemmas about the validation/download loop -/

theorem isEmpty_false_of_ne_nil {l : List String} (h : l ≠ []) : l.isEmpty = false := by
  cases l with
  | nil => exact absurd rfl h
  | cons a t => rfl

theorem contains_false_of_not_mem {a : String} {l : List String} (h : a ∉ l) :
    l.contains a = false := by
  cases hc : l.contains a with
  | false => rfl
  | true => exact absurd (List.mem_of_elem_eq_true hc) h

theorem not_mem_filter_ne_self (x : String) (l : List String) :
    x ∉ l.filter (fun g => !(g == x)) := by
  intro h
  have := (List.mem_filter.mp h).2
  simp at this

theorem validateLoop_unsuitable_mono (env : DlEnv) (ms : Nat) :
    ∀ (cands : List Candidate) (st : ValState) (a : String),
      a ∈ st.unsuitable → a ∈ (validateLoop env ms cands st).st.unsuitable := by
  intro cands
  induction cands with
  | nil => intro st a ha; exact ha
  | cons c rest ih =>
    intro st a ha
    simp only [validateLoop]
    split
    · exact ih st a ha
    · split
      · exact ih _ a (List.mem_cons_of_mem _ ha)
      · split
        · exact ih _ a (List.mem_cons_of_mem _ ha)
        · split
          · exact ha
          · exact ih _ a ha

theorem validateLoop_checked_sublist (env : DlEnv) (ms : Nat) :
    ∀ (cands : List Candidate) (st : ValState),
      List.Sublist (validateLoop env ms cands st).checked
        (cands.map (fun c => c.snapshot_address)) := by
  intro cands
  induction cands with
  | nil => intro st; exact List.nil_sublist _
  | cons c rest ih =>
    intro st
    simp only [validateLoop, List.map_cons]
    split
    · exact List.Sublist.cons _ (ih st)
    · split
      · exact List.Sublist.cons₂ _ (ih _)
      · split
        · exact List.Sublist.cons₂ _ (ih _)
        · split
          · exact List.Sublist.cons₂ _ (List.nil_sublist _)
          · exact List.Sublist.cons₂ _ (ih _)

theorem validateLoop_marks_unsuitable (env : DlEnv) (ms : Nat) :
    ∀ (cands : List Candidate) (st : ValState) (a : String),
      a ∈ (validateLoop env ms cands st).checked →
      (env.speed a = 0 ∨ env.speed a < ms * 1024 * 1024) →
      a ∈ (validateLoop env ms cands st).st.unsuitable := by
  intro cands
  induction cands with
  | nil =>
    intro st a ha _
    simp [validateLoop] at ha
  | cons c rest ih =>
    intro st a ha hsp
    simp only [validateLoop] at ha ⊢
    by_cases hcont : st.unsuitable.contains c.snapshot_address = true
    · rw [if_pos hcont] at ha ⊢
      exact ih st a ha hsp
    · rw [if_neg hcont] at ha ⊢
      cases hs0 : (env.speed c.snapshot_address == 0) with
      | true =>
        simp only [ite_bool_true hs0] at ha ⊢
        rcases List.mem_cons.mp ha with rfl | ha'
        · exact validateLoop_unsuitable_mono env ms rest _ _ (List.mem_cons_self _ _)
        · exact ih _ a ha' hsp
      | false =>
        simp only [ite_bool_false hs0] at ha ⊢
        by_cases hlt : env.speed c.snapshot_address < ms * 1024 * 1024
        · simp only [if_pos hlt] at ha ⊢
          rcases List.mem_cons.mp ha with rfl | ha'
          · exact validateLoop_unsuitable_mono env ms rest _ _ (List.mem_cons_self _ _)
          · exact ih _ a ha' hsp
        · simp only [if_neg hlt] at ha ⊢
          have hane : env.speed c.snapshot_address ≠ 0 := by simpa using hs0
          cases hacc : ((downloadFiles env c.snapshot_address c.files_to_download.reverse
              ⟨st.fs, st.localSlot⟩ []).allOk && !c.files_to_download.isEmpty) with
          | true =>
            simp only [ite_bool_true hacc] at ha ⊢
            have haeq : a = c.snapshot_address := by simpa using ha
            subst haeq
            rcases hsp with h | h <;> omega
          | false =>
            simp only [ite_bool_false hacc] at ha ⊢
            rcases List.mem_cons.mp ha with rfl | ha'
            · rcases hsp with h | h <;> omega
            · exact ih _ a ha' hsp

theorem skipCheck_false_of_parse (localSlot : Nat) (name : List Char)
    (h : (match parseNat? ((splitOnChar '-' name).getD 1 []) with
          | some s => s == localSlot
          | none => false) = false) :
    skipCheck localSlot name = false := by
  simp only [skipCheck]
  rw [h, Bool.and_false]

theorem skipCheck_false_of_no_snap (localSlot : Nat) (name : List Char)
    (h : "snapshot-".toList.isPrefixOf name = false) :
    skipCheck localSlot name = false := by
  simp only [skipCheck]
  rw [h, Bool.false_and]

theorem chooseUrl_plain (env : DlEnv) (addr : String) (localSlot : Nat) (suffix : String)
    (h : hasSubstr "incremental-snapshot".toList ((pathNameL suffix).map Char.toLower) =
      false) :
    chooseUrl env addr localSlot suffix = mkUrl addr suffix := by
  simp only [chooseUrl]
  rw [ite_bool_false h]

theorem chooseUrl_fresh_none (env : DlEnv) (addr : String) (localSlot : Nat)
    (suffix : String)
    (h5 : hasSubstr "incremental-snapshot".toList ((pathNameL suffix).map Char.toLower) =
      true)
    (h6 : env.freshInc addr = none) :
    chooseUrl env addr localSlot suffix = mkUrl addr suffix := by
  simp only [chooseUrl, freshIncUrl]
  rw [ite_bool_true h5, h6]

theorem processFile_ok (env : DlEnv) (addr : String) (st : FileState) (suffix u : String)
    (hskip : skipCheck st.localSlot (pathNameL suffix) = false)
    (hurl : chooseUrl env addr st.localSlot suffix = u)
    (hrc : (env.wgetRC u == 0) = true) :
    processFile env addr st suffix =
      (⟨dlBasename u :: st.fs.filter (fun g => !(g == "tmp-" ++ dlBasename u)),
        updateSlot ("snapshot-".toList.isPrefixOf (pathNameL suffix)) st.localSlot
          (dlBasename u)⟩,
       FileStep.ok u (dlBasename u)) := by
  simp only [processFile]
  rw [ite_bool_false hskip, hurl]
  simp only [download]
  rw [ite_bool_true hrc]

theorem processFile_failed (env : DlEnv) (addr : String) (st : FileState)
    (suffix u : String)
    (hskip : skipCheck st.localSlot (pathNameL suffix) = false)
    (hurl : chooseUrl env addr st.localSlot suffix = u)
    (hrc : (env.wgetRC u == 0) = false) :
    processFile env addr st suffix =
      (⟨st.fs.filter (fun g => !(g == "tmp-" ++ dlBasename u)), st.localSlot⟩,
       FileStep.failed u) := by
  simp only [processFile]
  rw [ite_bool_false hskip, hurl]
  simp only [download]
  rw [ite_bool_false hrc]

/-! ## C1 — behaviour on a failed artifact download -/

/-- C1 counterexample: the first ranked peer clears the speed check but
its single download fails; the engine then moves on to the second ranked
peer within the same attempt and the attempt succeeds (`main_worker`
returns 0) — contradicting the claim that the whole attempt fails with
retry left to the Attempt Controller. -/
theorem download_failure_tries_next_peer_cex :
    (validateLoop ⟨fun _ => 104857600, fun _ => none,
        fun u => if u == "http://10.0.0.1:8899/snapshot-100-aaa.tar.zst" then 1 else 0⟩ 60
      [⟨"10.0.0.1:8899", 50, 10, ["snapshot-100-aaa.tar.zst"]⟩,
       ⟨"10.0.0.2:8899", 50, 20, ["snapshot-100-bbb.tar.zst"]⟩] ⟨[], 0, []⟩).ret = 0
    ∧ (validateLoop ⟨fun _ => 104857600, fun _ => none,
        fun u => if u == "http://10.0.0.1:8899/snapshot-100-aaa.tar.zst" then 1 else 0⟩ 60
      [⟨"10.0.0.1:8899", 50, 10, ["snapshot-100-aaa.tar.zst"]⟩,
       ⟨"10.0.0.2:8899", 50, 20, ["snapshot-100-bbb.tar.zst"]⟩] ⟨[], 0, []⟩).checked =
      ["10.0.0.1:8899", "10.0.0.2:8899"]
    ∧ (downloadFiles ⟨fun _ => 104857600, fun _ => none,
        fun u => if u == "http://10.0.0.1:8899/snapshot-100-aaa.tar.zst" then 1 else 0⟩
        "10.0.0.1:8899" ["snapshot-100-aaa.tar.zst"].reverse ⟨[], 0⟩ []).allOk = false := by
  refine ⟨?_, ?_, ?_⟩ <;> decide

/-- C1 (amended): when a download fails, the partial temporary file is
removed and the remaining references for that peer are not attempted
(the attempted-URL list ends at the failed one); the validator then
proceeds to the subsequent ranked candidates within the same attempt
rather than failing the whole attempt. -/
theorem download_failure_aborts_peer_refs (env : DlEnv) :
    (∀ (addr : String) (st : FileState) (suffix : String) (rest : List String),
      (match parseNat? ((splitOnChar '-' (pathNameL suffix)).getD 1 []) with
        | some s => s == st.localSlot
        | none => false) = false →
      hasSubstr "incremental-snapshot".toList ((pathNameL suffix).map Char.toLower) = false →
      (env.wgetRC (mkUrl addr suffix) == 0) = false →
      downloadFiles env addr (suffix :: rest) st [] =
        ⟨st.fs.filter (fun g => !(g == "tmp-" ++ dlBasename (mkUrl addr suffix))),
          st.localSlot, [mkUrl addr suffix], false⟩
      ∧ ("tmp-" ++ dlBasename (mkUrl addr suffix)) ∉
          st.fs.filter (fun g => !(g == "tmp-" ++ dlBasename (mkUrl addr suffix))))
    ∧ (∀ (ms : Nat) (c : Candidate) (rest : List Candidate) (st : ValState),
      c.snapshot_address ∉ st.unsuitable →
      env.speed c.snapshot_address ≠ 0 →
      ¬ env.speed c.snapshot_address < ms * 1024 * 1024 →
      (downloadFiles env c.snapshot_address c.files_to_download.reverse
          ⟨st.fs, st.localSlot⟩ []).allOk = false →
      (validateLoop env ms (c :: rest) st).checked =
        c.snapshot_address ::
          (validateLoop env ms rest
            ⟨(downloadFiles env c.snapshot_address c.files_to_download.reverse
                ⟨st.fs, st.localSlot⟩ []).fs,
             (downloadFiles env c.snapshot_address c.files_to_download.reverse
                ⟨st.fs, st.localSlot⟩ []).localSlot,
             st.unsuitable⟩).checked) := by
  constructor
  · intro addr st suffix rest h1 h2 h3
    have hpf := processFile_failed env addr st suffix (mkUrl addr suffix)
      (skipCheck_false_of_parse _ _ h1) (chooseUrl_plain env addr _ suffix h2) h3
    constructor
    · simp only [downloadFiles, hpf, List.nil_append]
    · exact not_mem_filter_ne_self _ _
  · intro ms c rest st hnm hs0 hlt hfail
    simp only [validateLoop]
    rw [ite_bool_false (contains_false_of_not_mem hnm)]
    have hs0' : (env.speed c.snapshot_address == 0) = false := by simpa using hs0
    rw [ite_bool_false hs0', if_neg hlt]
    have hacc : ((downloadFiles env c.snapshot_address c.files_to_download.reverse
        ⟨st.fs, st.localSlot⟩ []).allOk && !c.files_to_download.isEmpty) = false := by
      rw [hfail]
      rfl
    rw [ite_bool_false hacc]

/-- C1 witness: a failing `wget` on the first of two references removes
the pre-existing temporary file, leaves the second reference unattempted,
and (second conjunct) the validator still measured the sole candidate and
proceeded past it. -/
theorem download_failure_aborts_peer_refs_witness :
    downloadFiles ⟨fun _ => 0, fun _ => none, fun _ => 1⟩ "7.7.7.1:8899"
        ("snapshot-100-aaa.tar.zst" :: ["snapshot-200-bbb.tar.zst"])
        ⟨["tmp-snapshot-100-aaa.tar.zst"], 7⟩ [] =
      ⟨[], 7, ["http://7.7.7.1:8899/snapshot-100-aaa.tar.zst"], false⟩
    ∧ (validateLoop ⟨fun _ => 104857600, fun _ => none, fun _ => 1⟩ 60
        [⟨"7.7.7.2:8899", 1, 2, ["snapshot-100-ccc.tar.zst"]⟩] ⟨[], 0, []⟩).checked =
      ["7.7.7.2:8899"] := by
  constructor
  · have h := (download_failure_aborts_peer_refs ⟨fun _ => 0, fun _ => none, fun _ => 1⟩).1
      "7.7.7.1:8899" ⟨["tmp-snapshot-100-aaa.tar.zst"], 7⟩ "snapshot-100-aaa.tar.zst"
      ["snapshot-200-bbb.tar.zst"] (by decide) (by decide) (by decide)
    rw [h.1]
    decide
  · have h := (download_failure_aborts_peer_refs
        ⟨fun _ => 104857600, fun _ => none, fun _ => 1⟩).2
      60 ⟨"7.7.7.2:8899", 1, 2, ["snapshot-100-ccc.tar.zst"]⟩ [] ⟨[], 0, []⟩
      (by decide) (by decide) (by decide) (by decide)
    rw [h]
    decide

/-! ## C2 — download order of a paired Candidate -/

/-- C2 counterexample: a validated Candidate listing the incremental
reference first and the full reference second (exactly as the classifier
builds it) has its references processed in reverse list order, so the
*full* snapshot's URL is attempted first and the incremental's last — the
opposite of the claimed incremental-before-full order. -/
theorem pair_candidate_full_first_cex :
    (get_snapshot_slot ⟨600, 100, 1300, 500⟩ "9.9.9.9:8899"
      ⟨some ⟨some "incremental-snapshot-400-550-abc.tar.zst", 10⟩,
       some ⟨some "snapshot-400-abc.tar.zst", 20⟩, none⟩).emitted =
      some ⟨"9.9.9.9:8899", 50, 10,
        ["incremental-snapshot-400-550-abc.tar.zst", "snapshot-400-abc.tar.zst"]⟩
    ∧ (downloadFiles ⟨fun _ => 0, fun _ => none, fun _ => 0⟩ "9.9.9.9:8899"
        ["incremental-snapshot-400-550-abc.tar.zst", "snapshot-400-abc.tar.zst"].reverse
        ⟨[], 500⟩ []).attempted =
      ["http://9.9.9.9:8899/snapshot-400-abc.tar.zst",
       "http://9.9.9.9:8899/incremental-snapshot-400-550-abc.tar.zst"]
    ∧ "http://9.9.9.9:8899/snapshot-400-abc.tar.zst" ≠
        "http://9.9.9.9:8899/incremental-snapshot-400-550-abc.tar.zst" := by
  refine ⟨?_, ?_, ?_⟩ <;> decide

/-- C2 (amended): for a Candidate listing `[incremental, full]`, the
orchestrator iterates `reversed(files_to_download)`, so the full artifact
is downloaded first and the incremental last (the code refreshes the
incremental link against the just-downloaded full snapshot's slot, which
requires exactly this order). -/
theorem pair_candidate_reverse_order_full_first (env : DlEnv)
    (addr incLoc fullLoc : String) (st : FileState)
    (h1 : (match parseNat? ((splitOnChar '-' (pathNameL fullLoc)).getD 1 []) with
           | some s => s == st.localSlot
           | none => false) = false)
    (h2 : hasSubstr "incremental-snapshot".toList ((pathNameL fullLoc).map Char.toLower) = false)
    (h3 : (env.wgetRC (mkUrl addr fullLoc) == 0) = true)
    (h4 : "snapshot-".toList.isPrefixOf (pathNameL incLoc) = false)
    (h5 : hasSubstr "incremental-snapshot".toList ((pathNameL incLoc).map Char.toLower) = true)
    (h6 : env.freshInc addr = none)
    (h7 : (env.wgetRC (mkUrl addr incLoc) == 0) = true) :
    (downloadFiles env addr [incLoc, fullLoc].reverse st []).attempted =
      [mkUrl addr fullLoc, mkUrl addr incLoc]
    ∧ (downloadFiles env addr [incLoc, fullLoc].reverse st []).allOk = true := by
  have hpf1 := processFile_ok env addr st fullLoc (mkUrl addr fullLoc)
    (skipCheck_false_of_parse _ _ h1) (chooseUrl_plain env addr _ fullLoc h2) h3
  have hpf2 := processFile_ok env addr
    ⟨dlBasename (mkUrl addr fullLoc) ::
        st.fs.filter (fun g => !(g == "tmp-" ++ dlBasename (mkUrl addr fullLoc))),
      updateSlot ("snapshot-".toList.isPrefixOf (pathNameL fullLoc)) st.localSlot
        (dlBasename (mkUrl addr fullLoc))⟩
    incLoc (mkUrl addr incLoc)
    (skipCheck_false_of_no_snap _ _ h4) (chooseUrl_fresh_none env addr _ incLoc h5 h6) h7
  constructor
  · show (downloadFiles env addr [fullLoc, incLoc] st []).attempted = _
    simp only [downloadFiles, hpf1, hpf2, List.nil_append, List.cons_append]
  · show (downloadFiles env addr [fullLoc, incLoc] st []).allOk = true
    simp only [downloadFiles, hpf1, hpf2]

/-- C2 witness: the classifier's pair Candidate from the counterexample is
downloaded full-reference first, incremental second, both succeeding. -/
theorem pair_candidate_reverse_order_full_first_witness :
    (downloadFiles ⟨fun _ => 0, fun _ => none, fun _ => 0⟩ "9.8.7.6:8899"
        ["incremental-snapshot-400-550-abc.tar.zst", "snapshot-400-abc.tar.zst"].reverse
        ⟨[], 500⟩ []).attempted =
      ["http://9.8.7.6:8899/snapshot-400-abc.tar.zst",
       "http://9.8.7.6:8899/incremental-snapshot-400-550-abc.tar.zst"]
    ∧ (downloadFiles ⟨fun _ => 0, fun _ => none, fun _ => 0⟩ "9.8.7.6:8899"
        ["incremental-snapshot-400-550-abc.tar.zst", "snapshot-400-abc.tar.zst"].reverse
        ⟨[], 500⟩ []).allOk = true := by
  have h := pair_candidate_reverse_order_full_first ⟨fun _ => 0, fun _ => none, fun _ => 0⟩
    "9.8.7.6:8899" "incremental-snapshot-400-550-abc.tar.zst" "snapshot-400-abc.tar.zst"
    ⟨[], 500⟩ (by decide) (by decide) (by decide) (by decide) (by decide) rfl (by decide)
  constructor
  · rw [h.1]
    decide
  · exact h.2

/-! ## C7 — bandwidth validation cap, unsuitable marking, acceptance -/

/-- C7 counterexample: the first ranked peer clears the minimum speed and
is accepted for download, but its download fails; the second ranked peer
is then still speed-validated within the same attempt — contradicting the
claim that no further peers are validated once one is accepted. -/
theorem accepted_peer_download_fail_continues_cex :
    (validateLoop ⟨fun _ => 209715200, fun _ => none,
        fun u => if u == "http://10.3.3.1:8899/snapshot-200-aaa.tar.zst" then 1 else 0⟩ 60
      [⟨"10.3.3.1:8899", 40, 5, ["snapshot-200-aaa.tar.zst"]⟩,
       ⟨"10.3.3.2:8899", 40, 6, ["snapshot-200-bbb.tar.zst"]⟩] ⟨[], 0, []⟩).checked =
      ["10.3.3.1:8899", "10.3.3.2:8899"]
    ∧ ¬ ((209715200 : Nat) < 60 * 1024 * 1024)
    ∧ (downloadFiles ⟨fun _ => 209715200, fun _ => none,
        fun u => if u == "http://10.3.3.1:8899/snapshot-200-aaa.tar.zst" then 1 else 0⟩
        "10.3.3.1:8899" ["snapshot-200-aaa.tar.zst"].reverse ⟨[], 0⟩ []).allOk = false := by
  refine ⟨?_, ?_, ?_⟩ <;> decide

/-- C7 (amended): the validator examines at most 15 top-ranked candidates,
in ranked order (the checked addresses form a sublist of the first 15
ranked addresses, without repetition when the ranked addresses are
distinct); every peer yielding no speed samples or a median below the
configured minimum is added to the unsuitable set; and the first peer that
clears the minimum *and* whose downloads all succeed ends validation
immediately with success — no further peer is speed-checked.  (When the
accepted peer's download fails, validation continues — see the
counterexample.) -/
theorem validate_loop_cap_unsuitable_accept (env : DlEnv) (ms : Nat)
    (ranked : List Candidate) (st : ValState) :
    ((validateTop env ms ranked st).checked.length ≤ 15
      ∧ List.Sublist (validateTop env ms ranked st).checked
          ((ranked.take 15).map (fun c => c.snapshot_address)))
    ∧ ((ranked.map (fun c => c.snapshot_address)).Nodup →
        (validateTop env ms ranked st).checked.Nodup)
    ∧ (∀ a, a ∈ (validateTop env ms ranked st).checked →
        (env.speed a = 0 ∨ env.speed a < ms * 1024 * 1024) →
        a ∈ (validateTop env ms ranked st).st.unsuitable)
    ∧ (∀ (c : Candidate) (rest : List Candidate) (st₀ : ValState),
        c.snapshot_address ∉ st₀.unsuitable →
        env.speed c.snapshot_address ≠ 0 →
        ¬ env.speed c.snapshot_address < ms * 1024 * 1024 →
        (downloadFiles env c.snapshot_address c.files_to_download.reverse
            ⟨st₀.fs, st₀.localSlot⟩ []).allOk = true →
        c.files_to_download ≠ [] →
        validateLoop env ms (c :: rest) st₀ =
          ⟨0, ⟨(downloadFiles env c.snapshot_address c.files_to_download.reverse
                  ⟨st₀.fs, st₀.localSlot⟩ []).fs,
               (downloadFiles env c.snapshot_address c.files_to_download.reverse
                  ⟨st₀.fs, st₀.localSlot⟩ []).localSlot,
               st₀.unsuitable⟩, [c.snapshot_address]⟩) := by
  refine ⟨⟨?_, ?_⟩, ?_, ?_, ?_⟩
  · have hsub := validateLoop_checked_sublist env ms (ranked.take 15) st
    have hlen := hsub.length_le
    rw [List.length_map] at hlen
    exact le_trans hlen (by rw [List.length_take]; omega)
  · exact validateLoop_checked_sublist env ms (ranked.take 15) st
  · intro hnd
    have hsub := validateLoop_checked_sublist env ms (ranked.take 15) st
    rw [List.map_take] at hsub
    exact hsub.nodup ((List.take_sublist _ _).nodup hnd)
  · intro a ha hsp
    exact validateLoop_marks_unsuitable env ms (ranked.take 15) st a ha hsp
  · intro c rest st₀ hnm hs0 hlt hok hne
    simp only [validateLoop]
    rw [ite_bool_false (contains_false_of_not_mem hnm)]
    have hs0' : (env.speed c.snapshot_address == 0) = false := by simpa using hs0
    rw [ite_bool_false hs0', if_neg hlt]
    have hacc : ((downloadFiles env c.snapshot_address c.files_to_download.reverse
        ⟨st₀.fs, st₀.localSlot⟩ []).allOk && !c.files_to_download.isEmpty) = true := by
      rw [hok, isEmpty_false_of_ne_nil hne]
      rfl
    rw [ite_bool_true hacc]

/-- C7 witness: a first peer measuring speed 0 is marked unsuitable and
the second peer — clearing the minimum with all downloads succeeding — is
accepted, ending validation; the checked list stays duplicate-free. -/
theorem validate_loop_cap_unsuitable_accept_witness :
    (validateTop ⟨fun a => if a == "10.2.2.1:8899" then 0 else 209715200, fun _ => none,
        fun _ => 0⟩ 60
      [⟨"10.2.2.1:8899", 10, 5, ["snapshot-300-aaa.tar.zst"]⟩,
       ⟨"10.2.2.2:8899", 10, 6, ["snapshot-300-bbb.tar.zst"]⟩] ⟨[], 0, []⟩).checked.Nodup
    ∧ "10.2.2.1:8899" ∈ (validateTop
        ⟨fun a => if a == "10.2.2.1:8899" then 0 else 209715200, fun _ => none,
          fun _ => 0⟩ 60
        [⟨"10.2.2.1:8899", 10, 5, ["snapshot-300-aaa.tar.zst"]⟩,
         ⟨"10.2.2.2:8899", 10, 6, ["snapshot-300-bbb.tar.zst"]⟩] ⟨[], 0, []⟩).st.unsuitable
    ∧ validateLoop ⟨fun a => if a == "10.2.2.1:8899" then 0 else 209715200, fun _ => none,
        fun _ => 0⟩ 60
        [⟨"10.2.2.2:8899", 10, 6, ["snapshot-300-bbb.tar.zst"]⟩] ⟨[], 0, []⟩ =
      ⟨0, ⟨["snapshot-300-bbb.tar.zst"], 300, []⟩, ["10.2.2.2:8899"]⟩ := by
  refine ⟨?_, ?_, ?_⟩
  · exact (validate_loop_cap_unsuitable_accept
      ⟨fun a => if a == "10.2.2.1:8899" then 0 else 209715200, fun _ => none, fun _ => 0⟩ 60
      [⟨"10.2.2.1:8899", 10, 5, ["snapshot-300-aaa.tar.zst"]⟩,
       ⟨"10.2.2.2:8899", 10, 6, ["snapshot-300-bbb.tar.zst"]⟩] ⟨[], 0, []⟩).2.1 (by decide)
  · exact (validate_loop_cap_unsuitable_accept
      ⟨fun a => if a == "10.2.2.1:8899" then 0 else 209715200, fun _ => none, fun _ => 0⟩ 60
      [⟨"10.2.2.1:8899", 10, 5, ["snapshot-300-aaa.tar.zst"]⟩,
       ⟨"10.2.2.2:8899", 10, 6, ["snapshot-300-bbb.tar.zst"]⟩] ⟨[], 0, []⟩).2.2.1
      "10.2.2.1:8899" (by decide) (Or.inl (by decide))
  · have h := (validate_loop_cap_unsuitable_accept
      ⟨fun a => if a == "10.2.2.1:8899" then 0 else 209715200, fun _ => none, fun _ => 0⟩ 60
      [] ⟨[], 0, []⟩).2.2.2
      ⟨"10.2.2.2:8899", 10, 6, ["snapshot-300-bbb.tar.zst"]⟩ [] ⟨[], 0, []⟩
      (by decide) (by decide) (by decide) (by decide) (by decide)
    rw [h]
    decide

end SnapFinder
